import Mathlib

/-!
LAVFilters demuxer core: `Demuxers/BaseDemuxer.h`.

A shallow embedding of the `Packet` byte buffer and of the inline members of
`CBaseDemuxer`, followed by the properties established about them.

Conventions of the embedding:

* `DWORD` values are natural numbers below `2^32`; every place where the C++
  code computes or receives a `DWORD` reduces modulo `2^32` (`toDWORD`).
* `int` values are integers in `[-2^31, 2^31)`; `toINT` is the conversion.
* A heap block is the list of the bytes it holds.  The null pointer owns no
  byte and is the empty block.
* `realloc` can fail; it then returns the null pointer, which the code stores
  without a test.  An oracle `fresh : Nat → BYTE` stands for an allocation that
  succeeds and is read as the outcome `Alloc.ok fresh`.
* A memory access outside a block is undefined behaviour in C++; the
  embedding returns `none` there.
-/

namespace BaseDemuxer

/-! ## Machine types -/

/-- One byte of payload (`BYTE`, an unsigned 8-bit value). -/
abbrev BYTE := Fin 256

/-- Conversion to `DWORD` (unsigned 32-bit): reduction modulo `2^32`. -/
def toDWORD (n : Nat) : Nat := n % 4294967296

/-- Conversion to `int` (signed 32-bit, two's complement). -/
def toINT (z : Int) : Int := (z + 2147483648) % 4294967296 - 2147483648

/-- Conversion of an `int` to `DWORD`: reduction modulo `2^32`. -/
def INTtoDWORD (z : Int) : Nat := (z % 4294967296).toNat

/-- Source: `BOOL` is `typedef int BOOL`. -/
abbrev BOOL := Int

/-- The value `FALSE` of `BOOL`. -/
def FALSE : BOOL := 0

/-- The value `TRUE` of `BOOL`. -/
def TRUE : BOOL := 1

/-- The null pointer, for pointers that the embedding keeps as addresses. -/
def NULL : Nat := 0

/-! ## Constants -/

/-- Source: `#define DSHOW_TIME_BASE 10000000` (DirectShow times are in 100ns units). -/
def DSHOW_TIME_BASE : Nat := 10000000

/-- Modelled from the spec: the platform macro `DWORD_MAX` is not defined in the
repository; the spec gives it as the maximum representable unsigned 32-bit
integer. -/
def DWORD_MAX : Nat := 4294967295

/-- Source: `#define NO_SUBTITLE_PID DWORD_MAX`. -/
def NO_SUBTITLE_PID : Nat := DWORD_MAX

/-- Modelled from the spec: the platform macro `_I64_MIN` is not defined in the
repository; the spec gives it as the minimum representable signed 64-bit
integer. -/
def _I64_MIN : Int := -9223372036854775807 - 1

/-! ## Heap blocks -/

/-- The outcome of one call of `realloc`, which the allocator decides: the call
succeeds, and `fresh i` is the indeterminate value found at offset `i` of the
grown part, or the call fails. -/
inductive Alloc where
  | ok (fresh : Nat → BYTE)
  | fail

/-- An oracle for the indeterminate bytes is read as the allocation that succeeds
with these bytes. -/
instance : Coe (Nat → BYTE) Alloc := ⟨Alloc.ok⟩

/-- The allocation succeeds. -/
def Alloc.succeeds : Alloc → Bool
  | .ok _ => true
  | .fail => false

/-- The C library `realloc(block, len)`.  On success: a block of exactly `len`
bytes that keeps the first `min len (old size)` bytes, the bytes beyond the old
size being indeterminate.  On failure: the null pointer, that is the empty
block (the old block stays allocated, out of reach of the caller that
overwrites its pointer). -/
def realloc (block : List BYTE) (len : Nat) : Alloc → List BYTE
  | .ok fresh => block.take len ++ (List.range' block.length (len - block.length)).map fresh
  | .fail => []

/-- The C library `memcpy(dst + off, src, n)`: the `n` first bytes of `src` are
written at offsets `off .. off + n - 1` of `dst`.  Undefined when the write
leaves `dst` or the read leaves `src`. -/
def memcpy (dst : List BYTE) (off : Nat) (src : List BYTE) (n : Nat) :
    Option (List BYTE) :=
  if off + n ≤ dst.length ∧ n ≤ src.length then
    some (dst.take off ++ src.take n ++ dst.drop (off + n))
  else none

/-- The C library `memmove(block + dstOff, block + srcOff, n)` inside one block:
the `n` bytes at offsets `srcOff ..` (as they were before the call) are written
at offsets `dstOff ..`.  Undefined when either range leaves the block. -/
def memmove (block : List BYTE) (dstOff srcOff n : Nat) : Option (List BYTE) :=
  if dstOff + n ≤ block.length ∧ srcOff + n ≤ block.length then
    some (block.take dstOff ++ (block.drop srcOff).take n ++ block.drop (dstOff + n))
  else none

/-! ## `class Packet` -/

/-- Data packet for queue storage.  `pmt` is kept as an address; `m_pbData` is
the block the pointer owns. -/
structure Packet where
  StreamId : Nat
  bDiscontinuity : BOOL
  bSyncPoint : BOOL
  bAppendable : BOOL
  rtStart : Int
  rtStop : Int
  pmt : Nat
  m_dSize : Nat
  m_pbData : List BYTE
  deriving DecidableEq

namespace Packet

/-- Source: `static const REFERENCE_TIME INVALID_TIME = _I64_MIN;` -/
def INVALID_TIME : Int := _I64_MIN

/-- Source: `Packet()`.  The constructor does not initialise `StreamId`; its
indeterminate value is the argument. -/
def construct (StreamId : Nat) : Packet :=
  { StreamId := StreamId
    pmt := NULL
    m_pbData := []
    bDiscontinuity := FALSE
    bSyncPoint := FALSE
    bAppendable := FALSE
    rtStart := INVALID_TIME
    rtStop := INVALID_TIME
    m_dSize := 0 }

/-- Source: `DWORD GetDataSize() const { return m_dSize; }` -/
def GetDataSize (p : Packet) : Nat := p.m_dSize

/-- Source: `BYTE *GetData() { return m_pbData; }` -/
def GetData (p : Packet) : List BYTE := p.m_pbData

/-- Source: `BYTE GetAt(DWORD pos) const { return m_pbData[pos]; }` -/
def GetAt (p : Packet) (pos : Nat) : Option BYTE := p.m_pbData[toDWORD pos]?

/-- Source: `bool IsEmpty() const { return m_dSize == 0; }` -/
def IsEmpty (p : Packet) : Bool := p.m_dSize == 0

/-- Source: `void SetDataSize(DWORD len) { m_dSize = len; m_pbData = (BYTE *)realloc(m_pbData, len); }` -/
def SetDataSize (p : Packet) (len : Nat) (a : Alloc) : Packet :=
  { p with
    m_dSize := toDWORD len
    m_pbData := realloc p.m_pbData (toDWORD len) a }

/-- Source: `void SetData(const void* ptr, DWORD len) { SetDataSize(len); memcpy(m_pbData, ptr, len); }`
where `ptr` is the byte sequence found at the given address. -/
def SetData (p : Packet) (ptr : List BYTE) (len : Nat) (a : Alloc) :
    Option Packet :=
  let p1 := p.SetDataSize len a
  (memcpy p1.m_pbData 0 ptr (toDWORD len)).map fun b => { p1 with m_pbData := b }

/-- Append the data of the package to our data buffer:
`DWORD prevSize = m_dSize; SetDataSize(prevSize + ptr->GetDataSize());`
`memcpy(m_pbData+prevSize, ptr->GetData(), ptr->GetDataSize());`
for a packet `ptr` other than the receiver. -/
def Append (p ptr : Packet) (a : Alloc) : Option Packet :=
  let prevSize := p.m_dSize
  let p1 := p.SetDataSize (toDWORD (prevSize + ptr.GetDataSize)) a
  (memcpy p1.m_pbData prevSize ptr.GetData ptr.GetDataSize).map
    fun b => { p1 with m_pbData := b }

/-- Remove count bytes from the head:
`count = min(count, m_dSize); memmove(m_pbData, m_pbData+count, m_dSize-count);`
`SetDataSize(m_dSize - count);` -/
def RemoveHead (p : Packet) (count : Nat) (a : Alloc) : Option Packet :=
  let count := min (toDWORD count) p.m_dSize
  (memmove p.m_pbData 0 count (p.m_dSize - count)).map
    fun b => ({ p with m_pbData := b }).SetDataSize (p.m_dSize - count) a

/-- A packet holds the payload `A`: its block is `A` and its size field is the
length of `A`, a `DWORD`. -/
def Holds (p : Packet) (A : List BYTE) : Prop :=
  p.m_pbData = A ∧ p.m_dSize = A.length ∧ A.length < 4294967296

instance (p : Packet) (A : List BYTE) : Decidable (p.Holds A) := by
  unfold Holds; infer_instance

end Packet

/-! ## Sequences of payload operations -/

/-- One call of a mutating payload operation, with its arguments and the outcome
of the allocation it makes. -/
inductive Op where
  | SetDataSize (len : Nat) (a : Alloc)
  | SetData (ptr : List BYTE) (len : Nat) (a : Alloc)
  | Append (ptr : Packet) (a : Alloc)
  | RemoveHead (count : Nat) (a : Alloc)

/-- The allocation that the call makes succeeds. -/
def Op.allocates : Op → Bool
  | .SetDataSize _ a => a.succeeds
  | .SetData _ _ a => a.succeeds
  | .Append _ a => a.succeeds
  | .RemoveHead _ a => a.succeeds

/-- The packet after one call; `none` when the call has undefined behaviour. -/
def step (p : Packet) : Op → Option Packet
  | .SetDataSize len a => some (p.SetDataSize len a)
  | .SetData ptr len a => p.SetData ptr len a
  | .Append ptr a => p.Append ptr a
  | .RemoveHead count a => p.RemoveHead count a

/-- The packet after a sequence of calls, first call first. -/
def run (p : Packet) : List Op → Option Packet
  | [] => some p
  | op :: ops => (step p op).bind fun p1 => run p1 ops

/-- The public data members of a packet other than its payload. -/
def metadata (p : Packet) : Nat × BOOL × BOOL × BOOL × Int × Int × Nat :=
  (p.StreamId, p.bDiscontinuity, p.bSyncPoint, p.bAppendable, p.rtStart, p.rtStop, p.pmt)

/-- The call `p.Append(&q)` on the two objects it can reach: the receiver and
the pointee as the call leaves them.  The body stores through `this` only; from
`ptr` it reads `ptr->GetDataSize()` and `ptr->GetData()`. -/
def AppendCall (p q : Packet) (a : Alloc) : Option (Packet × Packet) :=
  (p.Append q a).map fun r => (r, q)

/-! ## `class CBaseDemuxer` -/

/-- Result codes returned by the inline members.  Their numeric values come
from the platform headers. -/
inductive HRESULT where
  | S_OK
  | E_NOTIMPL
  deriving DecidableEq

/-- Source: `enum StreamType {video, audio, subpic, unknown};` -/
inductive StreamType where
  | video
  | audio
  | subpic
  | unknown
  deriving DecidableEq

/-- The integer value of an enumerator. -/
def StreamType.toNat : StreamType → Nat
  | .video => 0
  | .audio => 1
  | .subpic => 2
  | .unknown => 3

/-- Source: `struct stream { CStreamInfo *streamInfo; DWORD pid; ... }`; `streamInfo`
is kept as an address. -/
structure stream where
  streamInfo : Nat
  pid : Nat
  deriving DecidableEq

namespace stream

/-- Source: `struct stream() { streamInfo = NULL; pid = 0; }` -/
def construct : stream := { streamInfo := NULL, pid := 0 }

/-- Source: `operator DWORD() const { return pid; }` -/
def operatorDWORD (s : stream) : Nat := s.pid

/-- Source: `bool operator == (const struct stream& s) const { return (DWORD)*this == (DWORD)s; }` -/
def operatorEq (self s : stream) : Bool := self.operatorDWORD == s.operatorDWORD

end stream

/-- Source: `class CStreamList : public std::deque<stream>`. -/
abbrev CStreamList := List stream

/-- The data members of `CBaseDemuxer`:
`CCritSec *m_pLock; CStreamList m_streams[unknown]; int m_dActiveStreams[unknown];`
An array of `unknown` elements is a function on the indices below `unknown`. -/
structure CBaseDemuxer where
  m_pLock : Nat
  m_streams : Fin StreamType.unknown.toNat → CStreamList
  m_dActiveStreams : Fin StreamType.unknown.toNat → Int

namespace CBaseDemuxer

/-- Source: `virtual STDMETHODIMP SetTitle(int idx) { return E_NOTIMPL; }` -/
def SetTitle (d : CBaseDemuxer) (_idx : Int) : HRESULT × CBaseDemuxer :=
  (HRESULT.E_NOTIMPL, d)

/-- Source: `virtual STDMETHODIMP GetTitleInfo(int idx, REFERENCE_TIME *rtDuration, WCHAR **ppszName) { return E_NOTIMPL; }`
The values behind the two out-pointers are passed in and returned. -/
def GetTitleInfo (d : CBaseDemuxer) (_idx : Int) (rtDuration : Int) (ppszName : Nat) :
    HRESULT × CBaseDemuxer × Int × Nat :=
  (HRESULT.E_NOTIMPL, d, rtDuration, ppszName)

/-- Source: `virtual STDMETHODIMP GetNumTitles() { return E_NOTIMPL; }` -/
def GetNumTitles (d : CBaseDemuxer) : HRESULT × CBaseDemuxer :=
  (HRESULT.E_NOTIMPL, d)

/-- Set the currently active stream of one type:
`virtual HRESULT SetActiveStream(StreamType type, int pid) { m_dActiveStreams[type] = pid; return S_OK; }`
Undefined when `type` is not an index of the array. -/
def SetActiveStream (d : CBaseDemuxer) (type : StreamType) (pid : Int) :
    Option (HRESULT × CBaseDemuxer) :=
  if h : type.toNat < StreamType.unknown.toNat then
    some (HRESULT.S_OK,
      { d with m_dActiveStreams := Function.update d.m_dActiveStreams ⟨type.toNat, h⟩ (toINT pid) })
  else none

/-- Get the StreamList of the corresponding type:
`virtual CStreamList *GetStreams(StreamType type) { return &m_streams[type]; }`
The returned pointer is the index of the element of `m_streams` it designates;
there is none when `type` is not an index of the array. -/
def GetStreams (_d : CBaseDemuxer) (type : StreamType) :
    Option (Fin StreamType.unknown.toNat) :=
  if h : type.toNat < StreamType.unknown.toNat then some ⟨type.toNat, h⟩ else none

/-- The element `m_dActiveStreams[type]`; there is none when `type` is not an
index of the array. -/
def activeStream (d : CBaseDemuxer) (type : StreamType) : Option Int :=
  if h : type.toNat < StreamType.unknown.toNat then
    some (d.m_dActiveStreams ⟨type.toNat, h⟩)
  else none

/-- The element `m_streams[type]` that a pointer returned by `GetStreams`
designates. -/
def streamsAt (d : CBaseDemuxer) (i : Fin StreamType.unknown.toNat) : CStreamList :=
  d.m_streams i

end CBaseDemuxer

/-! ## Sample data -/

/-- The indeterminate bytes all read as zero. -/
def zeroFresh : Nat → BYTE := fun _ => 0

/-- A packet that carries metadata and the payload `1 2`. -/
def samplePacket : Packet :=
  { StreamId := 7, bDiscontinuity := TRUE, bSyncPoint := FALSE, bAppendable := TRUE,
    rtStart := 100, rtStop := 200, pmt := 64, m_dSize := 2, m_pbData := [1, 2] }

/-- A packet that carries other metadata and the payload `3 4 5`. -/
def otherPacket : Packet :=
  { StreamId := 9, bDiscontinuity := FALSE, bSyncPoint := TRUE, bAppendable := FALSE,
    rtStart := 300, rtStop := 400, pmt := 0, m_dSize := 3, m_pbData := [3, 4, 5] }

/-- The calls `SetData`, `Append`, `RemoveHead`, `SetDataSize`, one after the other. -/
def sampleOps : List Op :=
  [ .SetData [9, 8, 7] 3 zeroFresh,
    .Append otherPacket zeroFresh,
    .RemoveHead 2 zeroFresh,
    .SetDataSize 6 zeroFresh ]

/-- A single call of `SetDataSize(262144)` whose allocation fails. -/
def failedOps : List Op := [ .SetDataSize 262144 .fail ]

/-- A demuxer with no stream and every active stream set to 0. -/
def sampleDemuxer : CBaseDemuxer :=
  { m_pLock := 1, m_streams := fun _ => [], m_dActiveStreams := fun _ => 0 }

/-! ## Heap block lemmas -/

theorem realloc_length (block : List BYTE) (len : Nat) (fresh : Nat → BYTE) :
    (realloc block len fresh).length = len := by
  simp only [realloc, List.length_append, List.length_take, List.length_map,
    List.length_range']
  omega

theorem realloc_shrink (block : List BYTE) (len : Nat) (fresh : Nat → BYTE)
    (h : len ≤ block.length) : realloc block len fresh = block.take len := by
  simp [realloc, Nat.sub_eq_zero_of_le h]

theorem realloc_grow (block : List BYTE) (len : Nat) (fresh : Nat → BYTE)
    (h : block.length ≤ len) :
    realloc block len fresh
      = block ++ (List.range' block.length (len - block.length)).map fresh := by
  simp [realloc, List.take_of_length_le h]

theorem toDWORD_of_lt {n : Nat} (h : n < 4294967296) : toDWORD n = n :=
  Nat.mod_eq_of_lt h

theorem toDWORD_lt (n : Nat) : toDWORD n < 4294967296 :=
  Nat.mod_lt _ (by decide)

theorem toDWORD_idem (n : Nat) : toDWORD (toDWORD n) = toDWORD n :=
  toDWORD_of_lt (toDWORD_lt n)

theorem memcpy_length {dst src out : List BYTE} {off n : Nat}
    (h : memcpy dst off src n = some out) : out.length = dst.length := by
  unfold memcpy at h
  split at h
  · rename_i hb
    cases h
    simp only [List.length_append, List.length_take, List.length_drop]
    omega
  · cases h

theorem memmove_length {block out : List BYTE} {dstOff srcOff n : Nat}
    (h : memmove block dstOff srcOff n = some out) : out.length = block.length := by
  unfold memmove at h
  split at h
  · rename_i hb
    cases h
    simp only [List.length_append, List.length_take, List.length_drop]
    omega
  · cases h

/-! ## Appending -/

theorem realloc_zero (block : List BYTE) (a : Alloc) : realloc block 0 a = [] := by
  cases a <;> simp [realloc]

theorem RemoveHead_any (p : Packet) (D : List BYTE) (n : Nat) (a : Alloc)
    (hp : p.Holds D) (hn : n < 4294967296) :
    ∃ b, p.RemoveHead n a
      = some { p with m_dSize := D.length - n, m_pbData := realloc b (D.length - n) a } := by
  obtain ⟨hpD, hpS, hlen⟩ := hp
  have hmin : min n D.length ≤ D.length := Nat.min_le_right _ _
  have hsize : toDWORD (D.length - min n D.length) = D.length - n := by
    rw [toDWORD_of_lt (by omega)]
    omega
  have hmove : memmove D 0 (min n D.length) (D.length - min n D.length)
      = some (D.take 0 ++ (D.drop (min n D.length)).take (D.length - min n D.length)
          ++ D.drop (0 + (D.length - min n D.length))) := by
    unfold memmove
    rw [if_pos ⟨by omega, by omega⟩]
  refine ⟨D.take 0 ++ (D.drop (min n D.length)).take (D.length - min n D.length)
    ++ D.drop (0 + (D.length - min n D.length)), ?_⟩
  simp only [Packet.RemoveHead, hpD, hpS, toDWORD_of_lt hn, hmove, Option.map_some',
    Packet.SetDataSize, hsize]

/-- C2, as amended: for a packet that holds the payload D of size s and a count n
(a DWORD), RemoveHead(n) is defined and leaves the size s - n, whatever the
allocation does; with n at least s the packet is empty (size 0, no byte left),
whatever the allocation does; when the allocation succeeds the packet holds D
without its first n bytes, and with n below s, GetAt(i) is D[n + i] for every i
below s - n. -/
theorem RemoveHead_drop (p : Packet) (D : List BYTE) (n : Nat) (fresh : Nat → BYTE)
    (hp : p.Holds D) (hn : n < 4294967296) :
    (∃ r, p.RemoveHead n fresh = some r ∧
      r.m_pbData = D.drop n ∧ r.GetDataSize = D.length - n ∧
      (D.length ≤ n → r.GetDataSize = 0 ∧ r.IsEmpty = true ∧ r.m_pbData = []) ∧
      (n < D.length → r.GetDataSize = D.length - n ∧
        ∀ i, ∀ hi : n + i < D.length, r.GetAt i = some (D.get ⟨n + i, hi⟩))) ∧
    (∀ a : Alloc, D.length ≤ n →
      ∃ r, p.RemoveHead n a = some r ∧
        r.GetDataSize = 0 ∧ r.IsEmpty = true ∧ r.m_pbData = []) ∧
    (∀ a : Alloc, ∃ r, p.RemoveHead n a = some r ∧ r.GetDataSize = D.length - n) := by
  refine ⟨?_, ?_, ?_⟩
  rotate_left
  · intro a h
    obtain ⟨b, hb⟩ := RemoveHead_any p D n a hp hn
    have hz : D.length - n = 0 := Nat.sub_eq_zero_of_le h
    rw [hz, realloc_zero] at hb
    exact ⟨_, hb, rfl, rfl, rfl⟩
  · intro a
    obtain ⟨b, hb⟩ := RemoveHead_any p D n a hp hn
    exact ⟨_, hb, rfl⟩
  obtain ⟨hpD, hpS, hlen⟩ := hp
  have hmin : min n D.length ≤ D.length := Nat.min_le_right _ _
  have hmove : memmove D 0 (min n D.length) (D.length - min n D.length)
      = some (D.drop n ++ D.drop (D.length - min n D.length)) := by
    have hd : D.drop (min n D.length) = D.drop n := by
      rcases Nat.lt_or_ge n D.length with h | h
      · rw [Nat.min_eq_left (Nat.le_of_lt h)]
      · rw [Nat.min_eq_right h, List.drop_of_length_le h, List.drop_of_length_le (le_refl _)]
    have ht : (D.drop n).take (D.length - min n D.length) = D.drop n := by
      apply List.take_of_length_le
      rw [List.length_drop]
      omega
    unfold memmove
    rw [if_pos ⟨by omega, by omega⟩, hd, ht]
    simp
  have hsize : toDWORD (D.length - min n D.length) = D.length - n := by
    rw [toDWORD_of_lt (by omega)]
    omega
  have hblock : realloc (D.drop n ++ D.drop (D.length - min n D.length)) (D.length - n) fresh
      = D.drop n := by
    rw [realloc_shrink _ _ _ (by simp)]
    simp [List.take_append_eq_append_take, List.take_of_length_le]
  have hres : p.RemoveHead n fresh
      = some { p with m_dSize := D.length - n, m_pbData := D.drop n } := by
    simp only [Packet.RemoveHead, Packet.SetDataSize, hpD, hpS, toDWORD_of_lt hn, hmove,
      Option.map_some', hsize, hblock]
  refine ⟨_, hres, rfl, rfl, ?_, ?_⟩
  · intro h
    refine ⟨?_, ?_, ?_⟩
    · simp only [Packet.GetDataSize]; omega
    · simp only [Packet.IsEmpty, beq_iff_eq]; omega
    · exact List.drop_of_length_le h
  · intro h
    refine ⟨rfl, ?_⟩
    intro i hi
    simp only [Packet.GetAt, toDWORD_of_lt (show i < 4294967296 by omega)]
    simp [List.getElem?_drop, hi]

/-- C2, sample: removing one byte, and then more bytes than there are, from the
payload `3 4 5`. -/
theorem RemoveHead_drop_witness :
    otherPacket.Holds [3, 4, 5] ∧ 1 < 4294967296 ∧
    ∃ r, otherPacket.RemoveHead 1 zeroFresh = some r ∧
      r.m_pbData = ([3, 4, 5] : List BYTE).drop 1 ∧
      r.GetDataSize = ([3, 4, 5] : List BYTE).length - 1 ∧
      (([3, 4, 5] : List BYTE).length ≤ 1 →
        r.GetDataSize = 0 ∧ r.IsEmpty = true ∧ r.m_pbData = []) ∧
      (1 < ([3, 4, 5] : List BYTE).length →
        r.GetDataSize = ([3, 4, 5] : List BYTE).length - 1 ∧
        ∀ i, ∀ hi : 1 + i < ([3, 4, 5] : List BYTE).length,
          r.GetAt i = some (([3, 4, 5] : List BYTE).get ⟨1 + i, hi⟩)) :=
  ⟨by decide, by decide,
    (RemoveHead_drop otherPacket [3, 4, 5] 1 zeroFresh (by decide) (by decide)).1⟩

/-- C2, counterexample: RemoveHead(1) on a packet that holds `3 4 5`, with an
allocation that fails, is a defined call; it leaves the size 2 and the null
block, so the payload is not `4 5` and GetAt(0) reads outside the block. -/
theorem RemoveHead_drop_counterexample :
    otherPacket.Holds [3, 4, 5] ∧ 1 < ([3, 4, 5] : List BYTE).length ∧
    otherPacket.RemoveHead 1 Alloc.fail
      = some { otherPacket with m_dSize := 2, m_pbData := [] } ∧
    ({ otherPacket with m_dSize := 2, m_pbData := [] } : Packet).m_pbData
      ≠ ([3, 4, 5] : List BYTE).drop 1 ∧
    ({ otherPacket with m_dSize := 2, m_pbData := [] } : Packet).GetAt 0 = none ∧
    ¬ ∀ r, otherPacket.RemoveHead 1 Alloc.fail = some r →
        r.GetAt 0 = some (([3, 4, 5] : List BYTE).get ⟨1 + 0, by decide⟩) := by
  have hcall : otherPacket.RemoveHead 1 Alloc.fail
      = some { otherPacket with m_dSize := 2, m_pbData := [] } := by decide
  refine ⟨by decide, by decide, hcall, by decide, by decide, ?_⟩
  intro hall
  exact absurd (hall _ hcall) (by decide)

/-! ## Size and block stay consistent -/

theorem SetDataSize_consistent (p : Packet) (len : Nat) (fresh : Nat → BYTE) :
    (p.SetDataSize len fresh).GetDataSize = (p.SetDataSize len fresh).m_pbData.length := by
  simp only [Packet.SetDataSize, Packet.GetDataSize, realloc_length]

theorem step_consistent (p r : Packet) (op : Op) (hok : op.allocates = true)
    (h : step p op = some r) : r.GetDataSize = r.m_pbData.length := by
  cases op with
  | SetDataSize len a =>
    cases a with
    | fail => exact absurd hok (by simp [Op.allocates, Alloc.succeeds])
    | ok fresh =>
      simp only [step, Option.some.injEq] at h
      rw [← h]
      exact SetDataSize_consistent p len fresh
  | SetData ptr len a =>
    cases a with
    | fail => exact absurd hok (by simp [Op.allocates, Alloc.succeeds])
    | ok fresh =>
      simp only [step, Packet.SetData, Option.map_eq_some'] at h
      obtain ⟨b, hb, rfl⟩ := h
      have := memcpy_length hb
      simp only [Packet.SetDataSize, realloc_length] at this
      simp only [Packet.GetDataSize, Packet.SetDataSize, this]
  | Append ptr a =>
    cases a with
    | fail => exact absurd hok (by simp [Op.allocates, Alloc.succeeds])
    | ok fresh =>
      simp only [step, Packet.Append, Option.map_eq_some'] at h
      obtain ⟨b, hb, rfl⟩ := h
      have := memcpy_length hb
      simp only [Packet.SetDataSize, realloc_length] at this
      simp only [Packet.GetDataSize, Packet.SetDataSize, this]
  | RemoveHead count a =>
    cases a with
    | fail => exact absurd hok (by simp [Op.allocates, Alloc.succeeds])
    | ok fresh =>
      simp only [step, Packet.RemoveHead, Option.map_eq_some'] at h
      obtain ⟨b, _, rfl⟩ := h
      exact SetDataSize_consistent _ _ fresh

theorem run_preserves_consistent (ops : List Op) :
    ∀ p r : Packet, p.GetDataSize = p.m_pbData.length →
      (∀ op ∈ ops, op.allocates = true) → run p ops = some r →
      r.GetDataSize = r.m_pbData.length := by
  induction ops with
  | nil =>
    intro p r hp _ h
    simp only [run, Option.some.injEq] at h
    rw [← h]
    exact hp
  | cons op ops ih =>
    intro p r _ hok h
    simp only [run, Option.bind_eq_some] at h
    obtain ⟨p1, h1, h2⟩ := h
    exact ih p1 r (step_consistent p p1 op (hok op (List.mem_cons_self _ _)) h1)
      (fun o ho => hok o (List.mem_cons_of_mem _ ho)) h2

/-- Progress: on a packet whose size field equals the length of its block,
`SetDataSize` and `RemoveHead` are always defined, whatever the allocation
does; with an allocation that succeeds, `SetData` is defined when the source
has `len` bytes, and `Append` is defined when the other packet has the bytes it
announces and the sum of the sizes does not wrap. -/
theorem step_defined (p : Packet) (hp : p.GetDataSize = p.m_pbData.length) :
    (∀ len (a : Alloc), (step p (.SetDataSize len a)).isSome = true) ∧
    (∀ count (a : Alloc), (step p (.RemoveHead count a)).isSome = true) ∧
    (∀ ptr len (fresh : Nat → BYTE), toDWORD len ≤ ptr.length →
      (step p (.SetData ptr len fresh)).isSome = true) ∧
    (∀ q (fresh : Nat → BYTE), q.GetDataSize ≤ q.m_pbData.length →
      p.GetDataSize + q.GetDataSize < 4294967296 →
      (step p (.Append q fresh)).isSome = true) := by
  simp only [Packet.GetDataSize] at hp
  refine ⟨fun _ _ => rfl, ?_, ?_, ?_⟩
  · intro count a
    simp only [step, Packet.RemoveHead, Option.isSome_map', memmove]
    rw [if_pos ⟨by omega, by omega⟩]
    rfl
  · intro ptr len fresh hlen
    simp only [step, Packet.SetData, Option.isSome_map', memcpy, Packet.SetDataSize,
      realloc_length]
    rw [if_pos ⟨by omega, hlen⟩]
    rfl
  · intro q fresh hq hsum
    simp only [Packet.GetDataSize] at hq hsum
    simp only [step, Packet.Append, Option.isSome_map', memcpy, Packet.SetDataSize,
      Packet.GetDataSize, Packet.GetData, realloc_length, toDWORD_idem, toDWORD_of_lt hsum]
    rw [if_pos ⟨le_refl _, hq⟩]
    rfl

/-- C3, as amended: starting from a newly constructed packet, after any sequence
of calls of SetDataSize, SetData, Append and RemoveHead (each of them defined)
in which every allocation succeeds, GetDataSize() is exactly the number of
bytes of the payload block. -/
theorem run_consistent (StreamId : Nat) (ops : List Op) (r : Packet)
    (hok : ∀ op ∈ ops, op.allocates = true)
    (h : run (Packet.construct StreamId) ops = some r) :
    r.GetDataSize = r.m_pbData.length :=
  run_preserves_consistent ops (Packet.construct StreamId) r rfl hok h

/-- C3, sample: a run of the four operations, every allocation succeeding, ends
with size 6 and a block of 6 bytes. -/
theorem run_consistent_witness :
    (∀ op ∈ sampleOps, op.allocates = true) ∧
    run (Packet.construct 0) sampleOps
      = some { Packet.construct 0 with m_dSize := 6, m_pbData := [7, 3, 4, 5, 0, 0] } ∧
    ({ Packet.construct 0 with
        m_dSize := 6, m_pbData := [7, 3, 4, 5, 0, 0] } : Packet).GetDataSize
      = ({ Packet.construct 0 with
        m_dSize := 6, m_pbData := [7, 3, 4, 5, 0, 0] } : Packet).m_pbData.length :=
  ⟨by decide, by decide, run_consistent 0 sampleOps _ (by decide) (by decide)⟩

/-- C3, counterexample: on a newly constructed packet, SetDataSize(262144) with an
allocation that fails is a defined call; it stores the size 262144 and then the
null pointer that realloc returns, so GetDataSize() is 262144 while the block
holds no byte. -/
theorem run_consistent_counterexample :
    run (Packet.construct 0) failedOps
      = some { Packet.construct 0 with m_dSize := 262144, m_pbData := [] } ∧
    ({ Packet.construct 0 with m_dSize := 262144, m_pbData := [] } : Packet).GetDataSize
      = 262144 ∧
    ({ Packet.construct 0 with m_dSize := 262144, m_pbData := [] } : Packet).m_pbData.length
      = 0 ∧
    ¬ ∀ r, run (Packet.construct 0) failedOps = some r →
        r.GetDataSize = r.m_pbData.length := by
  have hrun : run (Packet.construct 0) failedOps
      = some { Packet.construct 0 with m_dSize := 262144, m_pbData := [] } := by decide
  refine ⟨hrun, rfl, rfl, ?_⟩
  intro hall
  exact absurd (hall _ hrun) (by decide)

/-! ## Metadata is not touched -/

/-- C6: a defined call of SetDataSize, SetData, Append or RemoveHead leaves
StreamId, bDiscontinuity, bSyncPoint, bAppendable, rtStart, rtStop and pmt of
the receiving packet as they were, whatever payload it leaves. -/
theorem step_metadata (p r : Packet) (op : Op) (h : step p op = some r) :
    r.StreamId = p.StreamId ∧ r.bDiscontinuity = p.bDiscontinuity ∧
    r.bSyncPoint = p.bSyncPoint ∧ r.bAppendable = p.bAppendable ∧
    r.rtStart = p.rtStart ∧ r.rtStop = p.rtStop ∧ r.pmt = p.pmt := by
  cases op with
  | SetDataSize len fresh =>
    simp only [step, Option.some.injEq] at h
    subst h
    exact ⟨rfl, rfl, rfl, rfl, rfl, rfl, rfl⟩
  | SetData ptr len fresh =>
    simp only [step, Packet.SetData, Option.map_eq_some'] at h
    obtain ⟨b, _, rfl⟩ := h
    exact ⟨rfl, rfl, rfl, rfl, rfl, rfl, rfl⟩
  | Append ptr fresh =>
    simp only [step, Packet.Append, Option.map_eq_some'] at h
    obtain ⟨b, _, rfl⟩ := h
    exact ⟨rfl, rfl, rfl, rfl, rfl, rfl, rfl⟩
  | RemoveHead count fresh =>
    simp only [step, Packet.RemoveHead, Option.map_eq_some'] at h
    obtain ⟨b, _, rfl⟩ := h
    exact ⟨rfl, rfl, rfl, rfl, rfl, rfl, rfl⟩

/-- C6, sample: RemoveHead with a count above the size empties the packet and
keeps its seven metadata members. -/
theorem step_metadata_witness :
    step samplePacket (.RemoveHead 5 zeroFresh)
      = some { samplePacket with m_dSize := 0, m_pbData := [] } ∧
    (7 = samplePacket.StreamId ∧ TRUE = samplePacket.bDiscontinuity ∧
     FALSE = samplePacket.bSyncPoint ∧ TRUE = samplePacket.bAppendable ∧
     (100 : Int) = samplePacket.rtStart ∧ (200 : Int) = samplePacket.rtStop ∧
     64 = samplePacket.pmt) :=
  ⟨by decide,
    step_metadata samplePacket { samplePacket with m_dSize := 0, m_pbData := [] }
      (.RemoveHead 5 zeroFresh) (by decide)⟩

/-! ## Replacing the payload -/

/-- C5: for every packet, whatever it held, and every byte sequence D of length
len (a DWORD), SetData(D, len) is defined and leaves the block equal to D:
GetDataSize() is len and GetAt(i) is D[i] for every i below len. -/
theorem SetData_replaces (p : Packet) (D : List BYTE) (len : Nat) (fresh : Nat → BYTE)
    (hlen : D.length = len) (hdw : len < 4294967296) :
    ∃ r, p.SetData D len fresh = some r ∧ r.m_pbData = D ∧ r.GetDataSize = len ∧
      ∀ i, ∀ hi : i < D.length, r.GetAt i = some (D.get ⟨i, hi⟩) := by
  subst hlen
  have hblock : memcpy (realloc p.m_pbData D.length fresh) 0 D D.length = some D := by
    unfold memcpy
    rw [if_pos ⟨by rw [realloc_length]; omega, le_refl _⟩]
    have hdrop : (realloc p.m_pbData D.length fresh).drop (0 + D.length) = [] :=
      List.drop_of_length_le (by rw [realloc_length]; omega)
    rw [hdrop]
    simp
  refine ⟨{ p.SetDataSize D.length fresh with m_pbData := D }, ?_, rfl, ?_, ?_⟩
  · simp only [Packet.SetData, Packet.SetDataSize, toDWORD_of_lt hdw, hblock,
      Option.map_some']
  · simp only [Packet.GetDataSize, Packet.SetDataSize, toDWORD_of_lt hdw]
  · intro i hi
    simp only [Packet.GetAt, toDWORD_of_lt (show i < 4294967296 by omega)]
    simp [hi]

/-- C5, sample: SetData with the bytes `3 4 5` on a packet that held `1 2`. -/
theorem SetData_replaces_witness :
    ([3, 4, 5] : List BYTE).length = 3 ∧ 3 < 4294967296 ∧
    ∃ r, samplePacket.SetData [3, 4, 5] 3 zeroFresh = some r ∧
      r.m_pbData = [3, 4, 5] ∧ r.GetDataSize = 3 ∧
      ∀ i, ∀ hi : i < ([3, 4, 5] : List BYTE).length,
        r.GetAt i = some (([3, 4, 5] : List BYTE).get ⟨i, hi⟩) :=
  ⟨by decide, by decide,
    SetData_replaces samplePacket [3, 4, 5] 3 zeroFresh (by decide) (by decide)⟩

/-! ## Emptiness -/

/-- C10: IsEmpty() is true exactly when GetDataSize() is 0, for every packet
state; a packet with any StreamId, flags, times, pmt and block whose size field
is 0 is empty. -/
theorem IsEmpty_iff :
    (∀ p : Packet, p.IsEmpty = true ↔ p.GetDataSize = 0) ∧
    (∀ (StreamId : Nat) (bDiscontinuity bSyncPoint bAppendable : BOOL)
        (rtStart rtStop : Int) (pmt : Nat) (m_pbData : List BYTE),
      Packet.IsEmpty
        { StreamId := StreamId, bDiscontinuity := bDiscontinuity,
          bSyncPoint := bSyncPoint, bAppendable := bAppendable, rtStart := rtStart,
          rtStop := rtStop, pmt := pmt, m_dSize := 0, m_pbData := m_pbData } = true) ∧
    ({ Packet.construct 3 with bDiscontinuity := TRUE } : Packet).IsEmpty = true ∧
    ({ Packet.construct 3 with rtStart := 10, rtStop := 20 } : Packet).IsEmpty = true := by
  refine ⟨fun p => ?_, fun _ _ _ _ _ _ _ _ => rfl, rfl, rfl⟩
  simp only [Packet.IsEmpty, Packet.GetDataSize, beq_iff_eq]

/-! ## Constants -/

/-- C9: INVALID_TIME is -2^63, the least signed 64-bit integer, and is not 0;
NO_SUBTITLE_PID is 2^32 - 1, the greatest unsigned 32-bit integer;
DSHOW_TIME_BASE is 10,000,000. -/
theorem constants_values :
    Packet.INVALID_TIME = -(2 : Int) ^ 63 ∧ Packet.INVALID_TIME ≠ 0 ∧
    NO_SUBTITLE_PID = 2 ^ 32 - 1 ∧ toDWORD NO_SUBTITLE_PID = NO_SUBTITLE_PID ∧
    toDWORD (NO_SUBTITLE_PID + 1) = 0 ∧
    DSHOW_TIME_BASE = 10000000 := by
  refine ⟨by decide, by decide, by decide, by decide, by decide, rfl⟩

/-! ## The demuxer tables -/

theorem toINT_of_range {z : Int} (h : -2147483648 ≤ z ∧ z < 2147483648) : toINT z = z := by
  unfold toINT
  omega

theorem StreamType.toNat_lt {type : StreamType} (h : type ≠ .unknown) :
    type.toNat < StreamType.unknown.toNat := by
  cases type <;> first | exact absurd rfl h | decide

theorem StreamType.toNat_injective {s t : StreamType} (h : s.toNat = t.toNat) : s = t := by
  cases s <;> cases t <;> first | rfl | exact absurd h (by decide)

/-- C4, as amended: for every stream type among video, audio and subpic and every
pid (an int), SetActiveStream(type, pid) returns S_OK; the entry of `type` in
the active-stream table becomes pid, the entries of the other types, the stream
lists and the lock are as before, and the outcome is the same whatever the
stream lists hold. The table has three entries, none of them at the index
`unknown`. -/
theorem SetActiveStream_update (d : CBaseDemuxer) (type : StreamType) (pid : Int)
    (htype : type ≠ .unknown) (hpid : -2147483648 ≤ pid ∧ pid < 2147483648) :
    ∃ r, d.SetActiveStream type pid = some (HRESULT.S_OK, r) ∧
      r.activeStream type = some pid ∧
      (∀ t, t ≠ type → r.activeStream t = d.activeStream t) ∧
      r.m_streams = d.m_streams ∧ r.m_pLock = d.m_pLock ∧
      (∀ s, ({ d with m_streams := s }).SetActiveStream type pid
        = some (HRESULT.S_OK, { r with m_streams := s })) ∧
      Fintype.card (Fin StreamType.unknown.toNat) = 3 ∧
      ∀ i : Fin StreamType.unknown.toNat, i.val ≠ StreamType.unknown.toNat := by
  have h := StreamType.toNat_lt htype
  refine ⟨{ d with m_dActiveStreams :=
      Function.update d.m_dActiveStreams ⟨type.toNat, h⟩ pid }, ?_, ?_, ?_, rfl, rfl, ?_,
      by decide, fun i => Nat.ne_of_lt i.isLt⟩
  · simp only [CBaseDemuxer.SetActiveStream, dif_pos h, toINT_of_range hpid]
  · simp only [CBaseDemuxer.activeStream, dif_pos h, Function.update_same]
  · intro t ht
    unfold CBaseDemuxer.activeStream
    by_cases hlt : t.toNat < StreamType.unknown.toNat
    · have hne : (⟨t.toNat, hlt⟩ : Fin StreamType.unknown.toNat) ≠ ⟨type.toNat, h⟩ := by
        intro heq
        exact ht (StreamType.toNat_injective (Fin.mk.inj heq))
      simp only [dif_pos hlt, Function.update_noteq hne]
    · simp only [dif_neg hlt]
  · intro s
    simp only [CBaseDemuxer.SetActiveStream, dif_pos h, toINT_of_range hpid]

/-- C4, sample: making stream 5 the active audio stream. -/
theorem SetActiveStream_update_witness :
    StreamType.audio ≠ StreamType.unknown ∧
    ((-2147483648 : Int) ≤ 5 ∧ (5 : Int) < 2147483648) ∧
    ∃ r, sampleDemuxer.SetActiveStream .audio 5 = some (HRESULT.S_OK, r) ∧
      r.activeStream .audio = some 5 ∧
      (∀ t, t ≠ StreamType.audio → r.activeStream t = sampleDemuxer.activeStream t) ∧
      r.m_streams = sampleDemuxer.m_streams ∧ r.m_pLock = sampleDemuxer.m_pLock ∧
      (∀ s, ({ sampleDemuxer with m_streams := s }).SetActiveStream .audio 5
        = some (HRESULT.S_OK, { r with m_streams := s })) ∧
      Fintype.card (Fin StreamType.unknown.toNat) = 3 ∧
      ∀ i : Fin StreamType.unknown.toNat, i.val ≠ StreamType.unknown.toNat :=
  ⟨by decide, by decide,
    SetActiveStream_update sampleDemuxer .audio 5 (by decide) (by decide)⟩

/-- C4, counterexample: the active-stream table has three elements, so there is
no entry for the type `unknown` (index 3) and SetActiveStream(unknown, 5)
writes outside the table instead of returning S_OK with an updated table. -/
theorem SetActiveStream_counterexample :
    StreamType.unknown.toNat = 3 ∧
    sampleDemuxer.activeStream .unknown = none ∧
    sampleDemuxer.SetActiveStream .unknown 5 = none ∧
    ¬ ∃ r, sampleDemuxer.SetActiveStream .unknown 5 = some (HRESULT.S_OK, r) ∧
        r.activeStream .unknown = some 5 := by
  refine ⟨rfl, rfl, rfl, ?_⟩
  rintro ⟨r, hr, -⟩
  cases hr

/-- C7, as amended: for each stream type among video, audio and subpic,
GetStreams(type) is defined and returns the element of `m_streams` whose index
is the value of the type; two different types among these three yield two
different elements. `m_streams` has three elements, none of them at the index
`unknown`. -/
theorem GetStreams_slot (d : CBaseDemuxer) (s t : StreamType)
    (hs : s ≠ .unknown) (ht : t ≠ .unknown) :
    (∃ i, d.GetStreams s = some i ∧ i.val = s.toNat ∧ d.streamsAt i = d.m_streams i) ∧
    (s ≠ t → d.GetStreams s ≠ d.GetStreams t) ∧
    Fintype.card (Fin StreamType.unknown.toNat) = 3 ∧
    ∀ i : Fin StreamType.unknown.toNat, i.val ≠ StreamType.unknown.toNat := by
  have h1 := StreamType.toNat_lt hs
  have h2 := StreamType.toNat_lt ht
  refine ⟨⟨⟨s.toNat, h1⟩, ?_, rfl, rfl⟩, ?_, by decide, fun i => Nat.ne_of_lt i.isLt⟩
  · simp only [CBaseDemuxer.GetStreams, dif_pos h1]
  · intro hne heq
    simp only [CBaseDemuxer.GetStreams, dif_pos h1, dif_pos h2, Option.some.injEq] at heq
    exact hne (StreamType.toNat_injective (Fin.mk.inj heq))

/-- C7, sample: the video and the audio stream lists are elements 0 and 1. -/
theorem GetStreams_slot_witness :
    StreamType.video ≠ StreamType.unknown ∧ StreamType.audio ≠ StreamType.unknown ∧
    (∃ i, sampleDemuxer.GetStreams .video = some i ∧ i.val = StreamType.video.toNat ∧
      sampleDemuxer.streamsAt i = sampleDemuxer.m_streams i) ∧
    (StreamType.video ≠ StreamType.audio →
      sampleDemuxer.GetStreams .video ≠ sampleDemuxer.GetStreams .audio) ∧
    Fintype.card (Fin StreamType.unknown.toNat) = 3 ∧
    ∀ i : Fin StreamType.unknown.toNat, i.val ≠ StreamType.unknown.toNat :=
  ⟨by decide, by decide,
    GetStreams_slot sampleDemuxer .video .audio (by decide) (by decide)⟩

/-- C7, counterexample: `m_streams` has three elements, indices 0 to 2, and the
value of `unknown` is 3: GetStreams(unknown) designates no element, there is no
stream list for the type `unknown`. -/
theorem GetStreams_counterexample :
    StreamType.unknown.toNat = 3 ∧
    Fintype.card (Fin StreamType.unknown.toNat) = 3 ∧
    sampleDemuxer.GetStreams .unknown = none ∧
    ¬ ∃ i, sampleDemuxer.GetStreams .unknown = some i := by
  refine ⟨rfl, by decide, rfl, ?_⟩
  rintro ⟨i, hi⟩
  cases hi

/-! ## Title navigation defaults -/

/-- C8: in the base demuxer SetTitle(idx), GetTitleInfo(idx, ...) and
GetNumTitles() return E_NOTIMPL for every argument; the stream lists, the
active-stream table, the lock and the values behind the out-pointers of
GetTitleInfo are left as they were. -/
theorem title_defaults (d : CBaseDemuxer) (idx : Int) (rtDuration : Int) (ppszName : Nat) :
    ((d.SetTitle idx).1 = HRESULT.E_NOTIMPL ∧ (d.SetTitle idx).2 = d) ∧
    ((d.GetTitleInfo idx rtDuration ppszName).1 = HRESULT.E_NOTIMPL ∧
      (d.GetTitleInfo idx rtDuration ppszName).2 = (d, rtDuration, ppszName)) ∧
    (d.GetNumTitles.1 = HRESULT.E_NOTIMPL ∧ d.GetNumTitles.2 = d) ∧
    ((d.SetTitle idx).2.m_streams = d.m_streams ∧
      (d.SetTitle idx).2.m_dActiveStreams = d.m_dActiveStreams) ∧
    ((d.GetTitleInfo idx rtDuration ppszName).2.1.m_streams = d.m_streams ∧
      (d.GetTitleInfo idx rtDuration ppszName).2.1.m_dActiveStreams = d.m_dActiveStreams) ∧
    (d.GetNumTitles.2.m_streams = d.m_streams ∧
      d.GetNumTitles.2.m_dActiveStreams = d.m_dActiveStreams) ∧
    HRESULT.E_NOTIMPL ≠ HRESULT.S_OK :=
  ⟨⟨rfl, rfl⟩, ⟨rfl, rfl⟩, ⟨rfl, rfl⟩, ⟨rfl, rfl⟩, ⟨rfl, rfl⟩, ⟨rfl, rfl⟩, by decide⟩

/-! ## Stream records -/

/-- C11: two stream records compare equal with operator== exactly when their pid
members are equal, whatever their streamInfo pointers; the conversion of a
stream to DWORD is its pid; operator== is reflexive, symmetric and
transitive. -/
theorem stream_operatorEq :
    (∀ s t : stream, s.operatorEq t = true ↔ s.pid = t.pid) ∧
    (∀ s : stream, s.operatorDWORD = s.pid) ∧
    (∀ a b pid : Nat,
      stream.operatorEq { streamInfo := a, pid := pid } { streamInfo := b, pid := pid }
        = true) ∧
    (∀ s : stream, s.operatorEq s = true) ∧
    (∀ s t : stream, s.operatorEq t = true → t.operatorEq s = true) ∧
    (∀ s t u : stream, s.operatorEq t = true → t.operatorEq u = true →
      s.operatorEq u = true) := by
  have key : ∀ s t : stream, s.operatorEq t = true ↔ s.pid = t.pid := by
    intro s t
    simp only [stream.operatorEq, stream.operatorDWORD, beq_iff_eq]
  refine ⟨key, fun _ => rfl, ?_, ?_, ?_, ?_⟩
  · intro a b pid
    exact (key _ _).2 rfl
  · intro s
    exact (key s s).2 rfl
  · intro s t h
    exact (key t s).2 ((key s t).1 h).symm
  · intro s t u h1 h2
    exact (key s u).2 (((key s t).1 h1).trans ((key t u).1 h2))

/-- C11, sample: two records with the same pid and different descriptors compare
equal, and the comparison passes on from equal pairs. -/
theorem stream_operatorEq_witness :
    stream.operatorEq { streamInfo := 16, pid := 4 } { streamInfo := 32, pid := 4 } = true ∧
    stream.operatorEq { streamInfo := 32, pid := 4 } { streamInfo := 48, pid := 4 } = true ∧
    stream.operatorEq { streamInfo := 16, pid := 4 } { streamInfo := 48, pid := 4 } = true :=
  ⟨by decide, by decide,
    stream_operatorEq.2.2.2.2.2 { streamInfo := 16, pid := 4 } { streamInfo := 32, pid := 4 }
      { streamInfo := 48, pid := 4 } (by decide) (by decide)⟩

/-! ## The constructor -/

/-- C12: a newly constructed packet has size 0, is empty, has the null block, has
bDiscontinuity, bSyncPoint and bAppendable equal to FALSE, has a null pmt and
has rtStart and rtStop equal to INVALID_TIME. -/
theorem construct_state (StreamId : Nat) :
    (Packet.construct StreamId).GetDataSize = 0 ∧
    (Packet.construct StreamId).IsEmpty = true ∧
    (Packet.construct StreamId).GetData = [] ∧
    (Packet.construct StreamId).bDiscontinuity = FALSE ∧
    (Packet.construct StreamId).bSyncPoint = FALSE ∧
    (Packet.construct StreamId).bAppendable = FALSE ∧
    (Packet.construct StreamId).pmt = NULL ∧
    (Packet.construct StreamId).rtStart = Packet.INVALID_TIME ∧
    (Packet.construct StreamId).rtStop = Packet.INVALID_TIME ∧
    FALSE = 0 ∧ NULL = 0 ∧ Packet.INVALID_TIME ≠ 0 :=
  ⟨rfl, rfl, rfl, rfl, rfl, rfl, rfl, rfl, rfl, rfl, rfl, by decide⟩

/-! ## Closed forms of `Append` and `RemoveHead` -/

theorem Holds_consistent {p : Packet} {A : List BYTE} (h : p.Holds A) :
    p.GetDataSize = p.m_pbData.length := by
  obtain ⟨hA, hS, _⟩ := h
  simp only [Packet.GetDataSize, hA, hS]

theorem memcpy_tail (A B : List BYTE) (fresh : Nat → BYTE) :
    memcpy (realloc A (A.length + B.length) fresh) A.length B B.length = some (A ++ B) := by
  rw [realloc_grow A _ fresh (Nat.le_add_right _ _)]
  simp [memcpy]

theorem Append_of_holds (p q : Packet) (A B : List BYTE) (fresh : Nat → BYTE)
    (hp : p.Holds A) (hq : q.Holds B) (hsum : A.length + B.length < 4294967296) :
    p.Append q fresh
      = some { p with m_dSize := A.length + B.length, m_pbData := A ++ B } := by
  obtain ⟨hpA, hpS, _⟩ := hp
  obtain ⟨hqB, hqS, _⟩ := hq
  simp only [Packet.Append, Packet.SetDataSize, Packet.GetDataSize, Packet.GetData,
    hpA, hpS, hqB, hqS, toDWORD_idem, toDWORD_of_lt hsum, memcpy_tail, Option.map_some']

theorem memmove_head (D : List BYTE) (n : Nat) :
    memmove D 0 (min n D.length) (D.length - min n D.length)
      = some (D.drop n ++ D.drop (D.length - min n D.length)) := by
  have hmin : min n D.length ≤ D.length := Nat.min_le_right _ _
  have hd : D.drop (min n D.length) = D.drop n := by
    rcases Nat.lt_or_ge n D.length with h | h
    · rw [Nat.min_eq_left (Nat.le_of_lt h)]
    · rw [Nat.min_eq_right h, List.drop_of_length_le h, List.drop_of_length_le (le_refl _)]
  have ht : (D.drop n).take (D.length - min n D.length) = D.drop n := by
    apply List.take_of_length_le
    rw [List.length_drop]
    omega
  unfold memmove
  rw [if_pos ⟨by omega, by omega⟩, hd, ht]
  simp

theorem RemoveHead_of_holds (p : Packet) (D : List BYTE) (n : Nat) (fresh : Nat → BYTE)
    (hp : p.Holds D) (hn : n < 4294967296) :
    p.RemoveHead n fresh
      = some { p with m_dSize := D.length - n, m_pbData := D.drop n } := by
  obtain ⟨hpD, hpS, hlen⟩ := hp
  have hmin : min n D.length ≤ D.length := Nat.min_le_right _ _
  have hsize : toDWORD (D.length - min n D.length) = D.length - n := by
    rw [toDWORD_of_lt (by omega)]
    omega
  have hblock : realloc (D.drop n ++ D.drop (D.length - min n D.length)) (D.length - n) fresh
      = D.drop n := by
    rw [realloc_shrink _ _ _ (by simp)]
    simp [List.take_append_eq_append_take, List.take_of_length_le]
  simp only [Packet.RemoveHead, Packet.SetDataSize, hpD, hpS, toDWORD_of_lt hn,
    memmove_head, Option.map_some', hsize, hblock]

/-! ## Size arithmetic of `Append` -/

/-- C14, as amended: for a packet p that holds A and another packet q that holds
B, with |A| + |B| below 2^32, p.Append(q) followed by p.RemoveHead(|A|), each
with an allocation that succeeds, is defined and leaves p with exactly the
payload B and the size |B|. -/
theorem Append_RemoveHead (p q : Packet) (A B : List BYTE) (f1 f2 : Nat → BYTE)
    (hp : p.Holds A) (hq : q.Holds B) (hsum : A.length + B.length < 4294967296) :
    ∃ r1 r2, p.Append q f1 = some r1 ∧ r1.RemoveHead A.length f2 = some r2 ∧
      r2.m_pbData = B ∧ r2.GetDataSize = B.length ∧ r2.Holds B := by
  have h1 := Append_of_holds p q A B f1 hp hq hsum
  have hr1 : ({ p with m_dSize := A.length + B.length, m_pbData := A ++ B } : Packet).Holds
      (A ++ B) := ⟨rfl, (List.length_append A B).symm, by rw [List.length_append]; exact hsum⟩
  have h2 := RemoveHead_of_holds _ (A ++ B) A.length f2 hr1 (by omega)
  have hdrop : (A ++ B).drop A.length = B := List.drop_left A B
  have hlen : (A ++ B).length - A.length = B.length := by
    rw [List.length_append]; omega
  rw [hdrop, hlen] at h2
  exact ⟨_, _, h1, h2, rfl, rfl, rfl, rfl, hq.2.2⟩

/-- C14, sample: appending `3 4 5` to `1 2` and removing two bytes leaves
`3 4 5`. -/
theorem Append_RemoveHead_witness :
    ∃ r1 r2, samplePacket.Append otherPacket zeroFresh = some r1 ∧
      r1.RemoveHead ([1, 2] : List BYTE).length zeroFresh = some r2 ∧
      r2.m_pbData = [3, 4, 5] ∧ r2.GetDataSize = ([3, 4, 5] : List BYTE).length ∧
      r2.Holds [3, 4, 5] :=
  Append_RemoveHead samplePacket otherPacket [1, 2] [3, 4, 5] zeroFresh zeroFresh
    (by decide) (by decide) (by decide)

/-- C14, counterexample: `3 4 5` is appended to `1 2`, then RemoveHead(2) is called
and its allocation fails. Both calls are defined; the packet is left with the
size 3 and the null block, not with the payload `3 4 5`. -/
theorem Append_RemoveHead_counterexample :
    samplePacket.Holds [1, 2] ∧ otherPacket.Holds [3, 4, 5] ∧
    samplePacket.Append otherPacket zeroFresh
      = some { samplePacket with m_dSize := 5, m_pbData := [1, 2, 3, 4, 5] } ∧
    ({ samplePacket with m_dSize := 5, m_pbData := [1, 2, 3, 4, 5] } : Packet).RemoveHead
        ([1, 2] : List BYTE).length Alloc.fail
      = some { samplePacket with m_dSize := 3, m_pbData := [] } ∧
    ({ samplePacket with m_dSize := 3, m_pbData := [] } : Packet).m_pbData ≠ [3, 4, 5] ∧
    ¬ ∀ r1 r2, samplePacket.Append otherPacket zeroFresh = some r1 →
        r1.RemoveHead ([1, 2] : List BYTE).length Alloc.fail = some r2 →
        r2.m_pbData = [3, 4, 5] := by
  have h1 : samplePacket.Append otherPacket zeroFresh
      = some { samplePacket with m_dSize := 5, m_pbData := [1, 2, 3, 4, 5] } := by decide
  have h2 : ({ samplePacket with m_dSize := 5, m_pbData := [1, 2, 3, 4, 5] } :
      Packet).RemoveHead ([1, 2] : List BYTE).length Alloc.fail
        = some { samplePacket with m_dSize := 3, m_pbData := [] } := by decide
  refine ⟨by decide, by decide, h1, h2, by decide, ?_⟩
  intro hall
  exact absurd (hall _ _ h1 h2) (by decide)

/-- C15, as amended: for a packet that holds D and counts a and b with a + b at
most 2^32 - 1, with allocations that succeed, RemoveHead(a) followed by
RemoveHead(b) is defined and leaves the packet that a single RemoveHead(a + b)
leaves, with the payload D without its first a + b bytes; RemoveHead(0) leaves
the packet as it was. -/
theorem RemoveHead_add (p : Packet) (D : List BYTE) (a b : Nat) (f1 f2 f3 : Nat → BYTE)
    (hp : p.Holds D) (hab : a + b ≤ 4294967295) :
    (∃ r1 r2, p.RemoveHead a f1 = some r1 ∧ r1.RemoveHead b f2 = some r2 ∧
      p.RemoveHead (a + b) f3 = some r2 ∧
      r2.m_pbData = D.drop (a + b) ∧ r2.GetDataSize = D.length - (a + b)) ∧
    p.RemoveHead 0 f1 = some p := by
  have hlen := hp.2.2
  have h1 := RemoveHead_of_holds p D a f1 hp (by omega)
  have hr1 : ({ p with m_dSize := D.length - a, m_pbData := D.drop a } : Packet).Holds
      (D.drop a) := ⟨rfl, (List.length_drop a D).symm, by rw [List.length_drop]; omega⟩
  have h2 := RemoveHead_of_holds _ (D.drop a) b f2 hr1 (by omega)
  have h3 := RemoveHead_of_holds p D (a + b) f3 hp (by omega)
  have hdrop : (D.drop a).drop b = D.drop (a + b) := by
    rw [List.drop_drop, Nat.add_comm]
  have hsize : (D.drop a).length - b = D.length - (a + b) := by
    rw [List.length_drop]; omega
  rw [hdrop, hsize] at h2
  refine ⟨⟨_, _, h1, h2, h3, rfl, rfl⟩, ?_⟩
  have h0 := RemoveHead_of_holds p D 0 f1 hp (by decide)
  rw [h0]
  obtain ⟨hpD, hpS, -⟩ := hp
  cases p
  simp only [Packet.mk.injEq, Option.some.injEq, true_and] at hpD hpS ⊢
  subst hpD
  subst hpS
  exact ⟨rfl, rfl⟩

/-- C15, sample: removing one byte and then one byte from `3 4 5` is removing two
bytes. -/
theorem RemoveHead_add_witness :
    (∃ r1 r2, otherPacket.RemoveHead 1 zeroFresh = some r1 ∧
      r1.RemoveHead 1 zeroFresh = some r2 ∧
      otherPacket.RemoveHead (1 + 1) zeroFresh = some r2 ∧
      r2.m_pbData = ([3, 4, 5] : List BYTE).drop (1 + 1) ∧
      r2.GetDataSize = ([3, 4, 5] : List BYTE).length - (1 + 1)) ∧
    otherPacket.RemoveHead 0 zeroFresh = some otherPacket :=
  RemoveHead_add otherPacket [3, 4, 5] 1 1 zeroFresh zeroFresh zeroFresh
    (by decide) (by decide)

/-- C15, counterexample: on a packet that holds `3 4 5`, RemoveHead(1) followed by
a RemoveHead(1) whose allocation fails leaves the size 1 and the null block,
while a single RemoveHead(2) leaves the payload `5`; and RemoveHead(0) with an
allocation that fails leaves the size 3 and the null block. -/
theorem RemoveHead_add_counterexample :
    otherPacket.Holds [3, 4, 5] ∧
    otherPacket.RemoveHead 1 zeroFresh
      = some { otherPacket with m_dSize := 2, m_pbData := [4, 5] } ∧
    ({ otherPacket with m_dSize := 2, m_pbData := [4, 5] } : Packet).RemoveHead 1 Alloc.fail
      = some { otherPacket with m_dSize := 1, m_pbData := [] } ∧
    otherPacket.RemoveHead (1 + 1) zeroFresh
      = some { otherPacket with m_dSize := 1, m_pbData := [5] } ∧
    ({ otherPacket with m_dSize := 1, m_pbData := [] } : Packet).m_pbData
      ≠ ({ otherPacket with m_dSize := 1, m_pbData := [5] } : Packet).m_pbData ∧
    otherPacket.RemoveHead 0 Alloc.fail
      = some { otherPacket with m_dSize := 3, m_pbData := [] } ∧
    otherPacket.RemoveHead 0 Alloc.fail ≠ some otherPacket := by
  refine ⟨by decide, by decide, by decide, by decide, by decide, by decide, by decide⟩

/-! ## `Append` only reads its argument -/

/-- C16: when p.Append(q) is defined for a packet q other than p, it leaves q as
it was (payload, size and metadata), it leaves the metadata of p as it was, and
the packet it makes of p is the same for every q with that size and that block:
no metadata of q reaches p. -/
theorem AppendCall_frame (p q r q1 : Packet) (fresh : Nat → BYTE)
    (h : AppendCall p q fresh = some (r, q1)) :
    q1 = q ∧
    (q1.m_pbData = q.m_pbData ∧ q1.GetDataSize = q.GetDataSize ∧ metadata q1 = metadata q) ∧
    metadata r = metadata p ∧
    (∀ q2 : Packet, q2.m_dSize = q.m_dSize → q2.m_pbData = q.m_pbData →
      AppendCall p q2 fresh = some (r, q2)) := by
  simp only [AppendCall, Option.map_eq_some', Prod.mk.injEq] at h
  obtain ⟨r0, hr0, hr, hq⟩ := h
  subst hr
  subst hq
  refine ⟨rfl, ⟨rfl, rfl, rfl⟩, ?_, ?_⟩
  · simp only [Packet.Append, Option.map_eq_some'] at hr0
    obtain ⟨b, _, rfl⟩ := hr0
    rfl
  · intro q2 hs hb
    have heq : p.Append q2 fresh = p.Append q fresh := by
      simp only [Packet.Append, Packet.GetDataSize, Packet.GetData, hs, hb]
    simp only [AppendCall, heq, hr0, Option.map_some']

/-- C16, sample: appending `3 4 5` to `1 2` leaves the argument untouched and the
metadata of the receiver in place. -/
theorem AppendCall_frame_witness :
    AppendCall samplePacket otherPacket zeroFresh
      = some ({ samplePacket with m_dSize := 5, m_pbData := [1, 2, 3, 4, 5] }, otherPacket) ∧
    metadata ({ samplePacket with m_dSize := 5, m_pbData := [1, 2, 3, 4, 5] } : Packet)
      = metadata samplePacket ∧
    metadata samplePacket ≠ metadata otherPacket :=
  ⟨by decide,
    (AppendCall_frame samplePacket otherPacket
      { samplePacket with m_dSize := 5, m_pbData := [1, 2, 3, 4, 5] } otherPacket zeroFresh
      (by decide)).2.2.1,
    by decide⟩

/-! ## PIDs through `SetActiveStream` -/

theorem INTtoDWORD_toINT {p : Nat} (hp : p < 4294967296) : INTtoDWORD (toINT p) = p := by
  unfold INTtoDWORD toINT
  omega

/-- C17: for every unsigned 32-bit PID p and every type that has an entry in the
active-stream table, SetActiveStream(type, p) stores the int conversion of p in
that entry, and the DWORD conversion of the stored int is p again; two PIDs that
leave the same stored value are equal; NO_SUBTITLE_PID is stored as -1. -/
theorem SetActiveStream_pid_roundtrip (d : CBaseDemuxer) (type : StreamType) (p : Nat)
    (htype : type ≠ .unknown) (hp : p < 4294967296) :
    (∃ r v, d.SetActiveStream type (p : Int) = some (HRESULT.S_OK, r) ∧
      r.activeStream type = some v ∧ v = toINT p ∧
      (-2147483648 ≤ v ∧ v < 2147483648) ∧ INTtoDWORD v = p ∧
      (p = NO_SUBTITLE_PID → v = -1)) ∧
    (∀ p2 : Nat, p2 < 4294967296 →
      (d.SetActiveStream type (p : Int)).map (fun x => x.2.activeStream type)
        = (d.SetActiveStream type (p2 : Int)).map (fun x => x.2.activeStream type) →
      p = p2) := by
  have h := StreamType.toNat_lt htype
  have hstore : ∀ n : Nat, (d.SetActiveStream type (n : Int)).map
      (fun x => x.2.activeStream type) = some (some (toINT n)) := by
    intro n
    simp only [CBaseDemuxer.SetActiveStream, dif_pos h, Option.map_some',
      CBaseDemuxer.activeStream, Function.update_same]
  constructor
  · refine ⟨{ d with m_dActiveStreams :=
        Function.update d.m_dActiveStreams ⟨type.toNat, h⟩ (toINT p) }, toINT p,
      ?_, ?_, rfl, ?_, INTtoDWORD_toINT hp, ?_⟩
    · simp only [CBaseDemuxer.SetActiveStream, dif_pos h]
    · simp only [CBaseDemuxer.activeStream, dif_pos h, Function.update_same]
    · unfold toINT
      omega
    · intro hno
      subst hno
      decide
  · intro p2 hp2 heq
    rw [hstore p, hstore p2] at heq
    simp only [Option.some.injEq] at heq
    have h1 := INTtoDWORD_toINT hp
    have h2 := INTtoDWORD_toINT hp2
    rw [heq, h2] at h1
    exact h1.symm

/-- C17, sample: NO_SUBTITLE_PID set as the active subpic stream is stored as -1
and reads back as `2^32 - 1`. -/
theorem SetActiveStream_pid_roundtrip_witness :
    StreamType.subpic ≠ StreamType.unknown ∧ NO_SUBTITLE_PID < 4294967296 ∧
    ∃ r v, sampleDemuxer.SetActiveStream .subpic (NO_SUBTITLE_PID : Int)
        = some (HRESULT.S_OK, r) ∧
      r.activeStream .subpic = some v ∧ v = toINT NO_SUBTITLE_PID ∧
      (-2147483648 ≤ v ∧ v < 2147483648) ∧ INTtoDWORD v = NO_SUBTITLE_PID ∧
      (NO_SUBTITLE_PID = NO_SUBTITLE_PID → v = -1) :=
  ⟨by decide, by decide,
    (SetActiveStream_pid_roundtrip sampleDemuxer .subpic NO_SUBTITLE_PID
      (by decide) (by decide)).1⟩

end BaseDemuxer
